import Mathlib

/-! Verification development for the concurrent URL-download service in main.go:
a lock-free admission limiter (ClientLimiter), a fetch unit (downloadUrl), a
worker pool with fail-fast orchestration (downloadUrls) and the HTTP handler
shell (readRequest, Handler.onRequest). Concurrency is embedded by making the
nondeterminism explicit: the orchestrator consumes results in an arbitrary
completion order (a permutation of the per-URL outcomes), the task queue is
split among workers by an arbitrary assignment, and the CAS loop of Acquire is
driven by an explicit interference schedule. -/

/-! Configuration constants from main.go. -/

def MaxConcurrentTasksPerRequest : Nat := 4

def MaxConcurrentClients : Int := 100

def MaxUrlsPerRequest : Nat := 20

/-! Admission limiter, modelling ClientLimiter.Acquire and ClientLimiter.release.
Acquire runs an optimistic compare-and-swap loop; each iteration atomically loads
the counter and, if below the maximum, attempts a CAS from the loaded value to
the loaded value plus one. The schedule lists, for each iteration, the value
loaded and the value held by the counter at the instant of the CAS (they differ
exactly when another thread interfered between the load and the CAS). -/

inductive AcquireResult where
  | acquired (newCount : Int)
  | limitReached
  | looping
deriving DecidableEq

def acquireRun (max : Int) : List (Int × Int) → AcquireResult
  | [] => .looping
  | (current, atCas) :: rest =>
    if max ≤ current then .limitReached
    else if atCas = current then .acquired (current + 1)
    else acquireRun max rest

/-- ClientLimiter.release: one unconditional atomic decrement. -/
def releaseStep (count : Int) : Int := count - 1

/-! Trace semantics for the counter shared across concurrent callers. The
events are the atomic actions that complete inside Acquire or release: a
successful CAS (which, by the guard, can only happen while the counter is
below the maximum), a load that observes the counter at the maximum and makes
Acquire fail, and a release decrement. -/

inductive LimiterEvent where
  | acquireCas
  | acquireFail
  | release
deriving DecidableEq

def applyEvent (count : Int) : LimiterEvent → Int
  | .acquireCas => count + 1
  | .acquireFail => count
  | .release => releaseStep count

/-- A trace is valid when each event's atomic guard held at the instant it
occurred: a successful CAS inside Acquire requires the counter below the
maximum, a LimitReached return requires the loaded counter at or above it. -/
def validFrom (max : Int) : Int → List LimiterEvent → Bool
  | _, [] => true
  | count, .acquireCas :: rest => decide (count < max) && validFrom max (count + 1) rest
  | count, .acquireFail :: rest => decide (max ≤ count) && validFrom max count rest
  | count, .release :: rest => validFrom max (count - 1) rest

/-- Pairing discipline of the callers: every release is preceded by a matching
successful acquire, so the running balance of acquires over releases never
drops to zero before a release. -/
def pairedFrom : Int → List LimiterEvent → Bool
  | _, [] => true
  | bal, .acquireCas :: rest => pairedFrom (bal + 1) rest
  | bal, .acquireFail :: rest => pairedFrom bal rest
  | bal, .release :: rest => decide (0 < bal) && pairedFrom (bal - 1) rest

/-- All values taken by the counter along a trace, the initial value included. -/
def countsFrom (count : Int) : List LimiterEvent → List Int
  | [] => [count]
  | e :: rest => count :: countsFrom (applyEvent count e) rest

/-! Fetch unit: downloadUrl. The external transport is an oracle mapping each
URL to the outcome of building the request and executing client.Do. A response
carries the status code and the outcome of ioutil.ReadAll on its body: the
bytes obtained and, when the read failed, the read error. -/

structure HttpResponse where
  statusCode : Int
  bodyData : String
  bodyErr : Option String
deriving DecidableEq

inductive DoOutcome where
  | reqError (e : String)
  | doError (e : String)
  | response (r : HttpResponse)
deriving DecidableEq

/-- downloadUrl from main.go: returns the pair (body bytes, error), with nil
bytes rendered as the empty string. A status outside [200,300) is a failure
whose message carries the status code and, when the error body was readable,
its content. -/
def downloadUrl (transport : String → DoOutcome) (url : String) : String × Option String :=
  match transport url with
  | .reqError e => ("", some e)
  | .doError e => ("", some e)
  | .response r =>
    if 200 ≤ r.statusCode ∧ r.statusCode < 300 then
      (r.bodyData, r.bodyErr)
    else
      match r.bodyErr with
      | some _ => ("", some ("status code: " ++ toString r.statusCode))
      | none => ("", some ("status code: " ++ toString r.statusCode ++ " (" ++ r.bodyData ++ ")"))

/-! Worker pool and orchestrator: downloadUrls. -/

structure TaskResult where
  url : String
  result : String
  err : Option String
deriving DecidableEq

/-- The TaskResult one worker emits for one URL taken from the task queue. -/
def processUrl (transport : String → DoOutcome) (url : String) : TaskResult :=
  ⟨url, (downloadUrl transport url).1, (downloadUrl transport url).2⟩

/-- One worker's loop: it drains its share of the task queue, emitting exactly
one TaskResult per URL received, with no retries. -/
def workerRun (transport : String → DoOutcome) (tasks : List String) : List TaskResult :=
  tasks.map (processUrl transport)

/-- All results emitted to the results channel by a pool of workers, given the
assignment of queue elements to workers (the channel delivers each queued URL
to exactly one worker). -/
def poolEmit (transport : String → DoOutcome) (assignment : List (List String)) : List TaskResult :=
  (assignment.map (workerRun transport)).flatten

inductive BatchOutcome where
  | ok (results : List TaskResult)
  | err (msg : String)
  | blocked
deriving DecidableEq

/-- State of one downloadUrls invocation after its collect loop ran: how many
results it read from the results channel, how many times it invoked
cancelRequests, and the value it returned. -/
structure CollectState where
  readCount : Nat
  cancelCount : Nat
  outcome : BatchOutcome
deriving DecidableEq

/-- The collect loop of downloadUrls: read one result per input URL from the
stream of results in completion order; on the first result carrying an error,
invoke cancelRequests and return the aggregated error at once, reading nothing
further; otherwise accumulate and, after the last read, return all outcomes. A
read from an exhausted stream would block forever. -/
def collectLoop : Nat → List TaskResult → List TaskResult → Nat → Nat → CollectState
  | 0, _, acc, reads, cancels => ⟨reads, cancels, .ok acc.reverse⟩
  | _ + 1, [], _, reads, cancels => ⟨reads, cancels, .blocked⟩
  | n + 1, r :: rest, acc, reads, cancels =>
    match r.err with
    | some e =>
      ⟨reads + 1, cancels + 1, .err ("failed to download Url \"" ++ r.url ++ "\": " ++ e)⟩
    | none => collectLoop n rest (r :: acc) (reads + 1) cancels

/-- downloadUrls from main.go, as observed by the orchestrator: a fresh
cancellation token is created for the batch (the cancel count starts at zero),
then len(urls) results are collected from the given completion-order stream. -/
def downloadUrls (urls : List String) (stream : List TaskResult) : CollectState :=
  collectLoop urls.length stream [] 0 0

/-! Request shell: readRequest and Handler.onRequest. The request body is
modelled as the outcome of reading and JSON-parsing the bytes; decoding into
the struct with the single field Urls of slice-of-string type follows
encoding/json: a missing or null field leaves the slice nil. -/

inductive Json where
  | null
  | bool (b : Bool)
  | num (n : Int)
  | str (s : String)
  | arr (elems : List Json)
  | obj (fields : List (String × Json))

/-- Code of one character under case folding: an ASCII upper-case letter goes
to its lower-case counterpart, anything else stays. -/
def foldCode (c : Char) : Nat :=
  if 65 ≤ c.toNat ∧ c.toNat ≤ 90 then c.toNat + 32 else c.toNat

/-- Case-insensitive key comparison, as strings.EqualFold compares an object
key with the field tag. -/
def keyFoldEq (a b : String) : Bool :=
  a.data.map foldCode == b.data.map foldCode

/-- Field lookup as encoding/json binds object keys to the struct field tagged
urls: a key matches the tag case-insensitively (an exact match only takes
precedence when several struct fields compete, which cannot happen with a
single field), keys are applied in document order, so the last matching key
wins. -/
def lookupField (key : String) : List (String × Json) → Option Json
  | [] => none
  | (k, v) :: rest =>
    match lookupField key rest with
    | some v2 => some v2
    | none => if keyFoldEq k key then some v else none

/-- Element decoding for a slice of strings, as encoding/json performs it: a
string element is taken as is, a null element leaves the fresh slot at its
zero value, the empty string, with no error; any other element is a type
error. -/
def decodeStringList : List Json → Except String (List String)
  | [] => .ok []
  | .str s :: rest =>
    match decodeStringList rest with
    | .ok l => .ok (s :: l)
    | .error e => .error e
  | .null :: rest =>
    match decodeStringList rest with
    | .ok l => .ok ("" :: l)
    | .error e => .error e
  | _ :: _ => .error "json: cannot unmarshal value into Go struct field of type string"

def decodeUrlsField : Json → Except String (List String)
  | .null => .ok []
  | .arr es => decodeStringList es
  | _ => .error "json: cannot unmarshal value into Go struct field urls of type []string"

def unmarshalUrls : Json → Except String (List String)
  | .null => .ok []
  | .obj fields =>
    match lookupField "urls" fields with
    | none => .ok []
    | some v => decodeUrlsField v
  | _ => .error "json: cannot unmarshal value into Go value of type struct"

/-- readRequest from main.go: propagate a body read or parse failure, else
decode the urls field. -/
def readRequest (body : Except String Json) : Except String (List String) :=
  match body with
  | .error e => .error e
  | .ok j => unmarshalUrls j

/-- Observable effect of one Handler.onRequest call: HTTP status written,
the success flag and reason and result of the JSON payload, the URL list
downloadUrls was invoked with (none when it was never invoked), and the
limiter counter after the handler returned, deferred release included. -/
structure HandlerResult where
  status : Nat
  success : Bool
  reason : Option String
  result : Option (List TaskResult)
  downloadCalled : Option (List String)
  finalCount : Int
deriving DecidableEq

/-- Handler.onRequest from main.go, for a call that runs without interference
on the limiter: reject non-POST with status 400; fail with 503 when the
admission counter is at the maximum, else acquire a slot, released when the
handler returns; report a body read error; reject more than MaxUrlsPerRequest
URLs; otherwise run downloadUrls on the batch and report its outcome. Returns
none only if the collect loop would block, which no real completion stream
causes. -/
def onRequest (max count : Int) (method : String) (body : Except String Json)
    (stream : List String → List TaskResult) : Option HandlerResult :=
  if method ≠ "POST" then
    some ⟨400, false, some "Method not supported", none, none, count⟩
  else if max ≤ count then
    some ⟨503, false, some "Max parallel requests reached", none, none, count⟩
  else
    match readRequest body with
    | .error e => some ⟨200, false, some e, none, none, releaseStep (count + 1)⟩
    | .ok urls =>
      if MaxUrlsPerRequest < urls.length then
        some ⟨200, false, some "Number of urls exceeds the maximum", none, none,
          releaseStep (count + 1)⟩
      else
        match (downloadUrls urls (stream urls)).outcome with
        | .blocked => none
        | .err e => some ⟨200, false, some e, none, some urls, releaseStep (count + 1)⟩
        | .ok res => some ⟨200, true, none, some res, some urls, releaseStep (count + 1)⟩

/-! Shared lemmas about the worker pool and the collect loop. -/

theorem map_url_processUrl (transport : String → DoOutcome) (ts : List String) :
    (ts.map (processUrl transport)).map TaskResult.url = ts := by
  induction ts with
  | nil => rfl
  | cons h t ih => simp [processUrl, ih]

theorem poolEmit_map_url (transport : String → DoOutcome) (assignment : List (List String)) :
    (poolEmit transport assignment).map TaskResult.url = assignment.flatten := by
  induction assignment with
  | nil => rfl
  | cons a rest ih =>
    simp only [poolEmit, List.map_cons, List.flatten_cons, List.map_append] at *
    rw [ih]
    simp only [workerRun]
    rw [map_url_processUrl]

theorem collectLoop_all_ok (stream : List TaskResult) :
    ∀ (acc : List TaskResult) (reads cancels : Nat),
      (∀ r ∈ stream, r.err = none) →
      collectLoop stream.length stream acc reads cancels =
        ⟨reads + stream.length, cancels, .ok (acc.reverse ++ stream)⟩ := by
  induction stream with
  | nil => intro acc reads cancels _; simp [collectLoop]
  | cons r rest ih =>
    intro acc reads cancels h
    have hr : r.err = none := h r (by simp)
    simp only [List.length_cons, collectLoop, hr]
    rw [ih (r :: acc) (reads + 1) cancels (fun y hy => h y (by simp [hy]))]
    simp only [CollectState.mk.injEq, List.reverse_cons, List.append_assoc,
      List.singleton_append, BatchOutcome.ok.injEq]
    refine ⟨by omega, trivial, trivial⟩

theorem collectLoop_first_err (e : String) (pre : List TaskResult) :
    ∀ (n : Nat) (r : TaskResult) (post acc : List TaskResult) (reads cancels : Nat),
      (∀ x ∈ pre, x.err = none) → r.err = some e → pre.length < n →
      collectLoop n (pre ++ r :: post) acc reads cancels =
        ⟨reads + pre.length + 1, cancels + 1,
          .err ("failed to download Url \"" ++ r.url ++ "\": " ++ e)⟩ := by
  induction pre with
  | nil =>
    intro n r post acc reads cancels _ hr hn
    match n, hn with
    | n + 1, _ => simp [collectLoop, hr]
  | cons x rest ih =>
    intro n r post acc reads cancels hpre hr hn
    match n, hn with
    | n + 1, hn =>
      have hx : x.err = none := hpre x (by simp)
      simp only [List.cons_append, collectLoop, hx, List.append_eq]
      rw [ih n r post (x :: acc) (reads + 1) cancels (fun y hy => hpre y (by simp [hy])) hr
        (by simpa using hn)]
      simp only [CollectState.mk.injEq, List.length_cons]
      refine ⟨by omega, trivial, trivial⟩

theorem collectLoop_cancel (n : Nat) :
    ∀ (stream acc : List TaskResult) (reads cancels : Nat),
      ((collectLoop n stream acc reads cancels).cancelCount = cancels ∧
        ∀ m, (collectLoop n stream acc reads cancels).outcome ≠ .err m) ∨
      ((collectLoop n stream acc reads cancels).cancelCount = cancels + 1 ∧
        ∃ m, (collectLoop n stream acc reads cancels).outcome = .err m) := by
  induction n with
  | zero => intro stream acc reads cancels; exact Or.inl ⟨rfl, by simp [collectLoop]⟩
  | succ n ih =>
    intro stream acc reads cancels
    match stream with
    | [] => exact Or.inl ⟨rfl, by simp [collectLoop]⟩
    | r :: rest =>
      match hr : r.err with
      | some e => right; constructor <;> simp [collectLoop, hr]
      | none =>
        have := ih rest (r :: acc) (reads + 1) cancels
        simpa [collectLoop, hr] using this

theorem collectLoop_ok_reads (n : Nat) :
    ∀ (stream acc : List TaskResult) (reads cancels : Nat) (l : List TaskResult),
      (collectLoop n stream acc reads cancels).outcome = .ok l →
      (collectLoop n stream acc reads cancels).readCount = reads + n := by
  induction n with
  | zero => intro stream acc reads cancels l _; rfl
  | succ n ih =>
    intro stream acc reads cancels l hl
    match stream with
    | [] => simp [collectLoop] at hl
    | r :: rest =>
      match hr : r.err with
      | some e => simp [collectLoop, hr] at hl
      | none =>
        simp only [collectLoop, hr] at hl ⊢
        rw [ih rest (r :: acc) (reads + 1) cancels l hl]
        omega

/-! Concrete transports used by the witnesses. -/

/-- Transport answering every URL with status 200 and body A. -/
def transportOkA : String → DoOutcome := fun _ => .response ⟨200, "A", none⟩

/-- Transport answering the one bad URL with status 500 and readable body boom,
and every other URL with status 200 and body A. -/
def transportOneBad : String → DoOutcome := fun u =>
  if u = "http://bad" then .response ⟨500, "boom", none⟩ else .response ⟨200, "A", none⟩

/-- Transport answering every URL with status 500 and readable body oops. -/
def transport500 : String → DoOutcome := fun _ => .response ⟨500, "oops", none⟩

/-- C1: for every batch in which every URL fetch succeeds, downloadUrls returns
Ok with a result list containing exactly one outcome per input URL, each
outcome carrying no error, regardless of the order in which results complete. -/
theorem downloadUrls_all_ok_spec (transport : String → DoOutcome) (urls : List String)
    (stream : List TaskResult)
    (hperm : stream.Perm (urls.map (processUrl transport)))
    (hfetch : ∀ u ∈ urls, (downloadUrl transport u).2 = none) :
    ∃ l, (downloadUrls urls stream).outcome = .ok l ∧ l.length = urls.length ∧
      (∀ r ∈ l, r.err = none) ∧ (l.map TaskResult.url).Perm urls := by
  have hlen : stream.length = urls.length := by
    have h := hperm.length_eq
    simpa using h
  have hok : ∀ r ∈ stream, r.err = none := by
    intro r hr
    have hmem : r ∈ urls.map (processUrl transport) := hperm.mem_iff.mp hr
    obtain ⟨u, hu, rfl⟩ := List.mem_map.mp hmem
    simpa [processUrl] using hfetch u hu
  refine ⟨stream, ?_, hlen, hok, ?_⟩
  · unfold downloadUrls
    rw [← hlen, collectLoop_all_ok stream [] 0 0 hok]
    simp
  · have h := hperm.map TaskResult.url
    rwa [map_url_processUrl] at h

/-- Witness for C1 on a two-URL batch whose results complete in reversed order. -/
theorem downloadUrls_all_ok_spec_witness :
    ∃ l, (downloadUrls ["http://a", "http://b"]
        [processUrl transportOkA "http://b", processUrl transportOkA "http://a"]).outcome =
          .ok l ∧
      l.length = (["http://a", "http://b"] : List String).length ∧
      (∀ r ∈ l, r.err = none) ∧ (l.map TaskResult.url).Perm ["http://a", "http://b"] :=
  downloadUrls_all_ok_spec transportOkA ["http://a", "http://b"]
    [processUrl transportOkA "http://b", processUrl transportOkA "http://a"]
    (by decide) (by decide)

/-- C2: on the first collected result carrying an error, downloadUrls triggers
the batch cancellation token exactly once and returns Err immediately, reading
no further results, with an error naming the failing URL and its cause, and
with no outcome list. -/
theorem downloadUrls_first_err_spec (transport : String → DoOutcome) (urls : List String)
    (pre post : List TaskResult) (r : TaskResult) (e : String)
    (hperm : (pre ++ r :: post).Perm (urls.map (processUrl transport)))
    (hpre : ∀ x ∈ pre, x.err = none) (hr : r.err = some e) :
    downloadUrls urls (pre ++ r :: post) =
      ⟨pre.length + 1, 1, .err ("failed to download Url \"" ++ r.url ++ "\": " ++ e)⟩ := by
  have hlen : pre.length + post.length + 1 = urls.length := by
    have h := hperm.length_eq
    simp [List.length_append] at h
    omega
  have hlt : pre.length < urls.length := by omega
  unfold downloadUrls
  have h := collectLoop_first_err e pre urls.length r post [] 0 0 hpre hr hlt
  simpa using h

/-- Witness for C2: the batch of a good and a bad URL where the good result
completes first; the call cancels after the second read and reports the bad
URL with its status-code cause. -/
theorem downloadUrls_first_err_spec_witness :
    downloadUrls ["http://a", "http://bad"]
        ([processUrl transportOneBad "http://a"] ++ processUrl transportOneBad "http://bad" :: []) =
      ⟨2, 1, .err ("failed to download Url \"" ++ "http://bad" ++ "\": " ++
        ("status code: " ++ toString (500 : Int) ++ " (" ++ "boom" ++ ")"))⟩ :=
  downloadUrls_first_err_spec transportOneBad ["http://a", "http://bad"]
    [processUrl transportOneBad "http://a"] [] (processUrl transportOneBad "http://bad")
    ("status code: " ++ toString (500 : Int) ++ " (" ++ "boom" ++ ")")
    (by decide) (by decide) (by decide)

/-- C3: Acquire fails with LimitReached exactly when the loaded counter value
has reached the maximum, and this is decided from the loaded value alone
whatever the rest of the schedule holds; otherwise an uncontended call
succeeds in a single CAS, incrementing the counter by exactly one, with no
blocking or queueing. -/
theorem acquire_spec (max c : Int) :
    (acquireRun max [(c, c)] = .limitReached ↔ max ≤ c)
    ∧ (c < max → acquireRun max [(c, c)] = .acquired (c + 1))
    ∧ (∀ w rest, max ≤ c → acquireRun max ((c, w) :: rest) = .limitReached) := by
  refine ⟨⟨fun h => ?_, fun h => by simp [acquireRun, h]⟩, fun h => ?_,
    fun w rest h => by simp [acquireRun, h]⟩
  · by_contra hc
    simp [acquireRun, hc] at h
  · have hc : ¬ max ≤ c := by omega
    simp [acquireRun, hc]

/-- Witness for C3: with the maximum of 100, a call loading 100 is refused and
a call loading 5 acquires, moving the counter to 6. -/
theorem acquire_spec_witness :
    acquireRun 100 [((100 : Int), (100 : Int))] = .limitReached
    ∧ acquireRun 100 [((5 : Int), (5 : Int))] = .acquired 6 :=
  ⟨(acquire_spec 100 100).1.mpr (by decide), (acquire_spec 100 5).2.1 (by decide)⟩

/-- Helper for C4: along any suffix of a trace, bounds on the running counter
are preserved by validity of the guards and the release pairing discipline. -/
theorem countsFrom_bounds (max : Int) (tr : List LimiterEvent) :
    ∀ count : Int, 0 ≤ count → count ≤ max →
      validFrom max count tr = true → pairedFrom count tr = true →
      ∀ c ∈ countsFrom count tr, 0 ≤ c ∧ c ≤ max := by
  induction tr with
  | nil =>
    intro count h0 h1 _ _ c hc
    simp [countsFrom] at hc
    omega
  | cons e rest ih =>
    intro count h0 h1 hv hp c hc
    cases e with
    | acquireCas =>
      simp only [validFrom, Bool.and_eq_true, decide_eq_true_eq] at hv
      simp only [pairedFrom] at hp
      simp only [countsFrom, applyEvent, List.mem_cons] at hc
      rcases hc with rfl | hc
      · exact ⟨h0, h1⟩
      · exact ih (count + 1) (by omega) (by omega) hv.2 hp c hc
    | acquireFail =>
      simp only [validFrom, Bool.and_eq_true, decide_eq_true_eq] at hv
      simp only [pairedFrom] at hp
      simp only [countsFrom, applyEvent, List.mem_cons] at hc
      rcases hc with rfl | hc
      · exact ⟨h0, h1⟩
      · exact ih count h0 h1 hv.2 hp c hc
    | release =>
      simp only [validFrom] at hv
      simp only [pairedFrom, Bool.and_eq_true, decide_eq_true_eq] at hp
      simp only [countsFrom, applyEvent, releaseStep, List.mem_cons] at hc
      rcases hc with rfl | hc
      · exact ⟨h0, h1⟩
      · exact ih (count - 1) (by omega) (by omega) hv hp.2 c hc

/-- C4: along every event trace in which each release is paired with a prior
successful acquire and each atomic guard held when its event occurred, the
limiter counter never leaves the range from zero to the configured maximum. -/
theorem limiter_counter_in_range (max : Int) (tr : List LimiterEvent)
    (hmax : 0 ≤ max) (hvalid : validFrom max 0 tr = true)
    (hpaired : pairedFrom 0 tr = true) :
    ∀ c ∈ countsFrom 0 tr, 0 ≤ c ∧ c ≤ max :=
  countsFrom_bounds max tr 0 le_rfl hmax hvalid hpaired

/-- Witness for C4: a seven-event trace at maximum 2 that saturates the
counter, observes a refused acquire, and releases everything; the value 2 it
reaches stays within bounds. -/
theorem limiter_counter_in_range_witness : 0 ≤ (2 : Int) ∧ (2 : Int) ≤ 2 :=
  limiter_counter_in_range 2
    [.acquireCas, .acquireCas, .acquireFail, .release, .acquireCas, .release, .release]
    (by decide) (by decide) (by decide) 2 (by decide)

/-- C5: each downloadUrls invocation starts with a fresh cancellation token and
triggers it at most once, exactly when it returns a first-failure error, for
every batch and every completion order. -/
theorem cancel_at_most_once (urls : List String) (stream : List TaskResult) :
    (downloadUrls urls stream).cancelCount ≤ 1
    ∧ ((downloadUrls urls stream).cancelCount = 1 ↔
        ∃ m, (downloadUrls urls stream).outcome = .err m) := by
  have h := collectLoop_cancel urls.length stream [] 0 0
  unfold downloadUrls
  rcases h with ⟨h1, h2⟩ | ⟨h1, h2⟩
  · refine ⟨by omega, ?_, ?_⟩
    · intro hx; omega
    · rintro ⟨m, hm⟩; exact absurd hm (h2 m)
  · exact ⟨by omega, fun _ => h2, fun _ => h1⟩

/-- Witness for C5 on a one-URL batch whose single result carries an error. -/
theorem cancel_at_most_once_witness :
    (downloadUrls ["http://a"] [⟨"http://a", "", some "boom"⟩]).cancelCount ≤ 1
    ∧ ((downloadUrls ["http://a"] [⟨"http://a", "", some "boom"⟩]).cancelCount = 1 ↔
        ∃ m, (downloadUrls ["http://a"] [⟨"http://a", "", some "boom"⟩]).outcome = .err m) :=
  cancel_at_most_once ["http://a"] [⟨"http://a", "", some "boom"⟩]

/-- C6: a response with status outside the range [200,300) makes downloadUrl
fail with no body: the error carries the status code and the error body
content when that body was readable, and only the status code when reading the
error body failed. -/
theorem downloadUrl_bad_status (transport : String → DoOutcome) (url : String)
    (r : HttpResponse) (hresp : transport url = .response r)
    (hbad : ¬(200 ≤ r.statusCode ∧ r.statusCode < 300)) :
    (downloadUrl transport url).1 = ""
    ∧ (r.bodyErr = none →
        (downloadUrl transport url).2 =
          some ("status code: " ++ toString r.statusCode ++ " (" ++ r.bodyData ++ ")"))
    ∧ (∀ e, r.bodyErr = some e →
        (downloadUrl transport url).2 = some ("status code: " ++ toString r.statusCode)) := by
  unfold downloadUrl
  rw [hresp]
  simp only [if_neg hbad]
  refine ⟨?_, ?_, ?_⟩
  · cases hb : r.bodyErr <;> simp [hb]
  · intro hb; simp [hb]
  · intro e hb; simp [hb]

/-- Witness for C6 on a 500 response with readable body. -/
theorem downloadUrl_bad_status_witness :
    (downloadUrl transport500 "http://x").1 = ""
    ∧ (downloadUrl transport500 "http://x").2 =
        some ("status code: " ++ toString (500 : Int) ++ " (" ++ "oops" ++ ")") := by
  have h := downloadUrl_bad_status transport500 "http://x" ⟨500, "oops", none⟩ rfl (by decide)
  exact ⟨h.1, h.2.1 rfl⟩

/-- C7: with the queued URLs distributed among the fixed-size pool of workers
in any way, every URL is attempted exactly once with no retries, so the
emitted results carry exactly one outcome per queue entry; and the
orchestrator reads exactly len(urls) results before deciding success. -/
theorem pool_exactly_once (transport : String → DoOutcome) (urls : List String)
    (assignment : List (List String))
    (_hworkers : assignment.length = MaxConcurrentTasksPerRequest)
    (hassign : assignment.flatten.Perm urls) :
    ((poolEmit transport assignment).map TaskResult.url).Perm urls
    ∧ (∀ u : String,
        ((poolEmit transport assignment).map TaskResult.url).count u = urls.count u)
    ∧ (∀ (stream : List TaskResult) (l : List TaskResult),
        (downloadUrls urls stream).outcome = .ok l →
        (downloadUrls urls stream).readCount = urls.length) := by
  have h1 : ((poolEmit transport assignment).map TaskResult.url).Perm urls := by
    rw [poolEmit_map_url]; exact hassign
  refine ⟨h1, fun u => h1.count_eq u, fun stream l hl => ?_⟩
  unfold downloadUrls at hl ⊢
  have h2 := collectLoop_ok_reads urls.length stream [] 0 0 l hl
  simpa using h2

/-- Witness for C7: three URLs spread unevenly over the four workers. -/
theorem pool_exactly_once_witness :
    ((poolEmit transportOkA [["http://a", "http://c"], ["http://b"], [], []]).map
      TaskResult.url).Perm ["http://a", "http://b", "http://c"] :=
  (pool_exactly_once transportOkA ["http://a", "http://b", "http://c"]
    [["http://a", "http://c"], ["http://b"], [], []] (by decide) (by decide)).1

/-- C8: the empty batch returns Ok with zero outcomes after zero reads from the
results channel, for every completion stream, and an empty task queue makes
the worker pool emit nothing. -/
theorem empty_batch_ok (stream : List TaskResult) (transport : String → DoOutcome)
    (assignment : List (List String))
    (hassign : assignment.flatten.Perm ([] : List String)) :
    downloadUrls [] stream = ⟨0, 0, .ok []⟩ ∧ poolEmit transport assignment = [] := by
  refine ⟨rfl, ?_⟩
  have h0 : assignment.flatten = [] := hassign.eq_nil
  have h1 : (poolEmit transport assignment).map TaskResult.url = [] := by
    rw [poolEmit_map_url]; exact h0
  exact List.map_eq_nil_iff.mp h1

/-- Witness for C8 with a nonempty stray stream and four idle workers. -/
theorem empty_batch_ok_witness :
    downloadUrls [] [⟨"http://a", "A", none⟩] = ⟨0, 0, .ok []⟩
    ∧ poolEmit transportOkA [[], [], [], []] = [] :=
  empty_batch_ok [⟨"http://a", "A", none⟩] transportOkA [[], [], [], []] (by decide)

/-- C9: a parsed POST whose URL count exceeds MaxUrlsPerRequest is answered
with the failure reason about exceeding the maximum and downloadUrls is never
invoked; and on every handler run, downloadUrls is only ever invoked with a
URL list whose length is within MaxUrlsPerRequest. -/
theorem handler_url_limit :
    (∀ (max count : Int) (body : Except String Json)
        (stream : List String → List TaskResult) (urls : List String),
      count < max → readRequest body = .ok urls → MaxUrlsPerRequest < urls.length →
      onRequest max count "POST" body stream =
        some ⟨200, false, some "Number of urls exceeds the maximum", none, none, count⟩)
    ∧ (∀ (max count : Int) (method : String) (body : Except String Json)
        (stream : List String → List TaskResult) (res : HandlerResult) (l : List String),
      onRequest max count method body stream = some res → res.downloadCalled = some l →
      l.length ≤ MaxUrlsPerRequest) := by
  constructor
  · intro max count body stream urls hcount hbody hlen
    have hmax : ¬ max ≤ count := by omega
    simp [onRequest, hbody, hmax, hlen, releaseStep]
  · intro max count method body stream res l h hdl
    unfold onRequest at h
    split at h
    · obtain rfl := Option.some.inj h
      simp at hdl
    · split at h
      · obtain rfl := Option.some.inj h
        simp at hdl
      · split at h
        · obtain rfl := Option.some.inj h
          simp at hdl
        · rename_i urls heq
          split at h
          · obtain rfl := Option.some.inj h
            simp at hdl
          · rename_i hlen
            split at h
            · exact absurd h (by simp)
            · obtain rfl := Option.some.inj h
              obtain rfl := Option.some.inj hdl
              omega
            · obtain rfl := Option.some.inj h
              obtain rfl := Option.some.inj hdl
              omega

/-- Request body holding twenty-one URLs, one more than the maximum. -/
def bodyTooMany : Except String Json :=
  .ok (.obj [("urls", .arr (List.replicate 21 (.str "u")))])

/-- Witness for C9: twenty-one URLs are rejected with the dedicated reason, no
download attempted, and the admission slot released. -/
theorem handler_url_limit_witness :
    onRequest 100 0 "POST" bodyTooMany (fun _ => []) =
      some ⟨200, false, some "Number of urls exceeds the maximum", none, none, 0⟩ :=
  handler_url_limit.1 100 0 bodyTooMany (fun _ => []) (List.replicate 21 "u")
    (by decide) (by rfl) (by decide)

/-- Case-insensitive tag matching of encoding/json: a body whose key is Urls
binds the urls field, so its URLs are downloaded rather than treated as an
empty batch. -/
theorem readRequest_binds_caseless_key :
    readRequest (.ok (.obj [("Urls", .arr [.str "http://x"])])) = .ok ["http://x"] := rfl

/-- Null elements of a string slice decode to the empty string with no error,
as encoding/json leaves the fresh slot at its zero value. -/
theorem decodeStringList_null_element :
    decodeStringList [.str "a", .null] = .ok ["a", ""] := rfl
